import Mathlib

/-!
# Wallet gateway (`src/js/metamask.js`)

A shallow embedding of the six async functions of `metamask.js`.

The script only talks to collaborators: the injected wallet object
(`window.ethereum`), the contract/provider library (`ethers`) and the
console.  Every call the script makes on a collaborator is appended to a
trace, and the collaborator's answer is taken from an arbitrary
state-dependent behaviour (`Collab`), so that a theorem quantified over
`Collab` speaks about every wallet and every library behaviour.

An awaited promise settles in one of three ways: it resolves, it rejects
(a synchronous throw inside an `async` function is the same thing for the
caller), or it never settles.
-/

namespace Metamask

/-! ## Values -/

/-- A thrown JavaScript value. -/
structure JsError where
  name : String
  message : String
  deriving DecidableEq, Repr

/-- The identity of an injected wallet object (`window.ethereum` when it is defined). -/
structure WalletObj where
  id : Nat
  deriving DecidableEq, Repr

/-- A flat object literal such as `{chainId: "0x4"}`: its keys with their string values. -/
abbrev JsObject := List (String × String)

/-- The argument of `window.ethereum.request`: `{method, params}`. -/
structure RequestArgs where
  method : String
  params : List JsObject
  deriving DecidableEq, Repr

/-- What an RPC request resolves to; the script never inspects it. -/
abbrev RpcResult := String

/-- An `ethers.providers.Web3Provider` object.  `id` is the identity of the object
(every `new` allocates a distinct one); `provider` is the field read by
`getProviderData` (`provider.provider`). -/
structure Web3Provider where
  id : Nat
  provider : WalletObj
  deriving DecidableEq, Repr

/-- The object returned by `provider.getSigner()`; it keeps the provider it came from. -/
structure JsonRpcSigner where
  provider : Web3Provider
  deriving DecidableEq, Repr

/-- An `ethers.Contract` object: the three constructor arguments it was built from. -/
structure Contract where
  address : String
  abi : List String
  signer : JsonRpcSigner
  deriving DecidableEq, Repr

/-- The object `contract.transfer(...)` resolves to; the script reads its `hash`. -/
structure TransactionResponse where
  hash : String
  deriving DecidableEq, Repr

/-- How an awaited expression ends. -/
inductive Outcome (α : Type) where
  | ok (a : α)
  | throw (e : JsError)
  | pending
  deriving DecidableEq, Repr

/-- Calls made by the script on its collaborators, in the order they are made. -/
inductive Event where
  | request (wallet : WalletObj) (args : RequestArgs)
  | send (provider : Web3Provider) (method : String) (params : List JsObject)
  | signMessage (signer : JsonRpcSigner) (message : String)
  | contractCall (contract : Contract) (method : String) (recipient : String) (amount : Int)
  | consoleLog (line : String)
  deriving DecidableEq, Repr

/-! ## Collaborators and the world -/

/-- The behaviour of everything outside the script, over an arbitrary external state `σ`
(what the user clicks, what the chain answers, whether the site is still authorised). -/
structure Collab (σ : Type) where
  /-- The value of `window.ethereum`: `none` is `undefined`. -/
  ethereum : σ → Option WalletObj
  /-- The method `window.ethereum.request(args)`. -/
  request : σ → WalletObj → RequestArgs → Outcome RpcResult × σ
  /-- The method `provider.send(method, params)`. -/
  send : σ → Web3Provider → String → List JsObject → Outcome RpcResult × σ
  /-- The method `signer.signMessage(message)`; it resolves to the signature, a string
  (so the template literal of line 28 cannot fail). -/
  signMessage : σ → JsonRpcSigner → String → Outcome String × σ
  /-- The function `ethers.utils.parseUnits(amount, decimals)`. -/
  parseUnits : String → Nat → Except JsError Int
  /-- The method `contract.transfer(recipient, amount)`. -/
  contractTransfer : σ → Contract → String → Int → Outcome TransactionResponse × σ

/-- The external state, the calls made so far, and the next free object identity. -/
structure World (σ : Type) where
  ext : σ
  trace : List Event
  nextId : Nat

/-- An `async` computation: from a world to how it ends and the world it leaves. -/
def Js (σ α : Type) : Type := World σ → Outcome α × World σ

instance (σ : Type) : Monad (Js σ) where
  pure a := fun w => (Outcome.ok a, w)
  bind m f := fun w =>
    match m w with
    | (Outcome.ok a, w1) => f a w1
    | (Outcome.throw e, w1) => (Outcome.throw e, w1)
    | (Outcome.pending, w1) => (Outcome.pending, w1)

/-- The statement `try { body } catch (err) { handler }`. A promise that never settles is not caught. -/
def tryCatch {σ α : Type} (body : Js σ α) (handler : JsError → Js σ α) : Js σ α :=
  fun w =>
    match body w with
    | (Outcome.ok a, w1) => (Outcome.ok a, w1)
    | (Outcome.throw e, w1) => handler e w1
    | (Outcome.pending, w1) => (Outcome.pending, w1)

/-- Append one call to the trace. -/
def World.log {σ : Type} (w : World σ) (ev : Event) : World σ :=
  { w with trace := w.trace ++ [ev] }

/-- Run a collaborator on the external state, after recording the call. -/
def call {σ α : Type} (ev : Event) (f : σ → Outcome α × σ) : Js σ α :=
  fun w =>
    let r := f w.ext
    (r.1, { ext := r.2, trace := w.trace ++ [ev], nextId := w.nextId })

/-- The expression `window.ethereum`. -/
def windowEthereum {σ : Type} (C : Collab σ) : Js σ (Option WalletObj) :=
  fun w => (Outcome.ok (C.ethereum w.ext), w)

/-- The error of reading a property of `undefined`. -/
def undefinedPropertyError (prop : String) : JsError :=
  { name := "TypeError", message := "Cannot read properties of undefined (reading " ++ prop ++ ")" }

/-- The call `eth.request(args)` where `eth` is the value of `window.ethereum`:
a `TypeError` when it is `undefined` (nothing is sent), the wallet's answer otherwise. -/
def ethereumRequest {σ : Type} (C : Collab σ) (eth : Option WalletObj) (args : RequestArgs) :
    Js σ RpcResult :=
  match eth with
  | none => fun w => (Outcome.throw (undefinedPropertyError "request"), w)
  | some wal => call (Event.request wal args) (fun s => C.request s wal args)

/-- The error raised by the provider constructor when no wallet object is given. -/
def missingProviderError : JsError :=
  { name := "Error", message := "missing provider" }

/-- Modelled from the spec: the constructor `new ethers.providers.Web3Provider(eth)` of the
contract/provider library, which is not part of the sources.  It wraps the injected object
as a provider whose `provider` field is that object, fails when the wallet object is
absent, and (being a `new`) yields an object distinct from all earlier ones. -/
def newWeb3Provider {σ : Type} (eth : Option WalletObj) : Js σ Web3Provider :=
  match eth with
  | none => fun w => (Outcome.throw missingProviderError, w)
  | some wal => fun w =>
      (Outcome.ok { id := w.nextId, provider := wal }, { w with nextId := w.nextId + 1 })

/-- The call `provider.send(method, params)`. -/
def providerSend {σ : Type} (C : Collab σ) (p : Web3Provider) (method : String)
    (params : List JsObject) : Js σ RpcResult :=
  call (Event.send p method params) (fun s => C.send s p method params)

/-- Modelled from the spec: the library method `provider.getSigner()`, which derives a signer
handle from a provider handle; it makes no request. -/
def providerGetSigner (p : Web3Provider) : JsonRpcSigner :=
  { provider := p }

/-- The call `signer.signMessage(message)`. -/
def signerSignMessage {σ : Type} (C : Collab σ) (sg : JsonRpcSigner) (message : String) :
    Js σ String :=
  call (Event.signMessage sg message) (fun s => C.signMessage s sg message)

/-- Modelled from the spec: the constructor `new ethers.Contract(address, abi, signer)` of the
library, which instantiates a contract client from its three arguments; it makes no request. -/
def newContract (address : String) (abi : List String) (signer : JsonRpcSigner) : Contract :=
  { address := address, abi := abi, signer := signer }

/-- The call `ethers.utils.parseUnits(amount, decimals)`: a pure computation that may throw. -/
def utilsParseUnits {σ : Type} (C : Collab σ) (amount : String) (decimals : Nat) : Js σ Int :=
  fun w =>
    match C.parseUnits amount decimals with
    | Except.ok n => (Outcome.ok n, w)
    | Except.error e => (Outcome.throw e, w)

/-- The call `contract.transfer(recipient, amount)`. -/
def contractTransfer {σ : Type} (C : Collab σ) (c : Contract) (recipient : String)
    (amount : Int) : Js σ TransactionResponse :=
  call (Event.contractCall c "transfer" recipient amount)
    (fun s => C.contractTransfer s c recipient amount)

/-- The call `console.log(line)`. -/
def consoleLog {σ : Type} (line : String) : Js σ Unit :=
  fun w => (Outcome.ok (), w.log (Event.consoleLog line))

/-! ## The functions of `metamask.js` -/

/-- Lines 3-9. -/
def getProvider {σ : Type} (C : Collab σ) : Js σ Web3Provider := do
  let provider ← newWeb3Provider (← windowEthereum C)
  let _ ← providerSend C provider "eth_requestAccounts" []
  return provider

/-- Lines 11-16. -/
def getSigner {σ : Type} (C : Collab σ) : Js σ JsonRpcSigner := do
  let provider ← getProvider C
  let signer := providerGetSigner provider
  return signer

/-- Lines 18-23. -/
def getProviderData {σ : Type} (C : Collab σ) : Js σ WalletObj := do
  let provider ← getProvider C
  let providerWeb3 := provider.provider
  return providerWeb3

/-- Lines 25-30. -/
def signMessage {σ : Type} (C : Collab σ) : Js σ String := do
  let signer ← getSigner C
  let flatSignature ← signerSignMessage C signer "Hello World"
  consoleLog ("signed: " ++ flatSignature)
  return flatSignature

/-- The object literal passed to `window.ethereum.request` on lines 34-41. -/
def switchChainArgs : RequestArgs :=
  { method := "wallet_switchEthereumChain", params := [[("chainId", "0x4")]] }

/-- Lines 32-46.  The result `some true` is the JavaScript value `true`;
`none` is `undefined` (the function falls off its end after the `catch`). -/
def setRinkeby {σ : Type} (C : Collab σ) : Js σ (Option Bool) :=
  tryCatch
    (do
      let _ ← ethereumRequest C (← windowEthereum C) switchChainArgs
      return some true)
    (fun _switchError => do
      consoleLog "error during chain change"
      return none)

/-- The array `abi` of lines 50-52. -/
def abi : List String :=
  ["function transfer(address recipient, uint256 amount) external returns(bool)"]

/-- Lines 49-60. -/
def transfer {σ : Type} (C : Collab σ) (token_address recipient amount : String)
    (decimals : Nat) : Js σ String := do
  let signer ← getSigner C
  let contract := newContract token_address abi signer
  let amountParsed ← utilsParseUnits C amount decimals
  let tx ← contractTransfer C contract recipient amountParsed
  return tx.hash

/-- The calls an execution started in `w` has added to the trace. -/
def newEvents {σ α : Type} (m : Js σ α) (w : World σ) : List Event :=
  (m w).2.trace.drop w.trace.length

/-- The provider object that a call of `getProvider` started in `w` constructs around `wal`. -/
def freshProvider {σ : Type} (w : World σ) (wal : WalletObj) : Web3Provider :=
  { id := w.nextId, provider := wal }

/-- The trace entry of the call `provider.send("eth_requestAccounts", [])` on line 6. -/
def authEvent (p : Web3Provider) : Event :=
  Event.send p "eth_requestAccounts" []

/-- How the `eth_requestAccounts` request of a call started in `w` ends, and the external
state it leaves. -/
def authAnswer {σ : Type} (C : Collab σ) (w : World σ) (wal : WalletObj) :
    Outcome RpcResult × σ :=
  C.send w.ext (freshProvider w wal) "eth_requestAccounts" []

/-- The world right after the `eth_requestAccounts` request of a call started in `w`. -/
def afterAuth {σ : Type} (C : Collab σ) (w : World σ) (wal : WalletObj) : World σ :=
  { ext := (authAnswer C w wal).2, trace := w.trace ++ [authEvent (freshProvider w wal)],
    nextId := w.nextId + 1 }

/-- Whether a trace entry is a call of `window.ethereum.request`. -/
def Event.isRequest : Event → Bool
  | Event.request _ _ => true
  | _ => false

/-- Whether a trace entry is a call of `provider.send`. -/
def Event.isSend : Event → Bool
  | Event.send _ _ _ => true
  | _ => false

/-- Whether a trace entry is a call of `signer.signMessage`. -/
def Event.isSignMessage : Event → Bool
  | Event.signMessage _ _ => true
  | _ => false

/-- Whether a trace entry is a call of a contract method. -/
def Event.isContractCall : Event → Bool
  | Event.contractCall _ _ _ _ => true
  | _ => false

/-- The request lines 34-41 make, as one step from a world. -/
def switchRequest {σ : Type} (C : Collab σ) : Js σ RpcResult := do
  ethereumRequest C (← windowEthereum C) switchChainArgs


/-! ## The decimal parser of the library -/

/-- The value of a decimal digit character, `none` for any other character. -/
def digitValue (c : Char) : Option Nat :=
  if 48 ≤ c.toNat ∧ c.toNat ≤ 57 then some (c.toNat - 48) else none

/-- Read a run of decimal digits left to right on top of `acc`; `none` at a non-digit. -/
def digitsValueFrom (acc : Nat) : List Char → Option Nat
  | [] => some acc
  | c :: cs =>
    match digitValue c with
    | none => none
    | some d => digitsValueFrom (acc * 10 + d) cs

/-- The text before the first `.` and, when there is one, the text after it. -/
def splitAtDot : List Char → List Char × Option (List Char)
  | [] => ([], none)
  | c :: cs =>
    if c = '.' then ([], some cs)
    else ((c :: (splitAtDot cs).1), (splitAtDot cs).2)

/-- Remove the zeros that end a run of characters. -/
def dropTrailingZeros : List Char → List Char
  | [] => []
  | c :: cs =>
    if c = '0' ∧ dropTrailingZeros cs = [] then [] else c :: dropTrailingZeros cs

/-- The error of the parser on a string that is not a decimal number. -/
def invalidDecimalError : JsError :=
  { name := "Error", message := "invalid decimal value" }

/-- The error of the parser on more fractional digits than `decimals`. -/
def underflowError : JsError :=
  { name := "Error", message := "fractional component exceeds decimals" }

/-- Modelled from the spec: the function `ethers.utils.parseUnits(amount, decimals)` of the
contract/provider library, which is not part of the sources.  It parses a decimal string
into an integer amount given a precision and fails on a malformed decimal string: an
optional `-`, then digits with at most one `.`; an empty whole or fractional part reads
as zero, zeros ending the fraction are ignored, and a fraction longer than `decimals`
is refused.  The result is the whole part times `10^decimals` plus the fraction padded
with zeros to `decimals` digits. -/
def parseUnits (amount : String) (decimals : Nat) : Except JsError Int :=
  let cs := amount.toList
  let negative := cs.head? = some '-'
  let body := if negative then cs.tail else cs
  if body = [] ∨ body = ['.'] then Except.error invalidDecimalError
  else
    let whole := (splitAtDot body).1
    let fraction := ((splitAtDot body).2).getD []
    let trimmed := dropTrailingZeros fraction
    match digitsValueFrom 0 whole, digitsValueFrom 0 fraction, digitsValueFrom 0 trimmed with
    | some wholeValue, some _, some fractionValue =>
      if decimals < trimmed.length then Except.error underflowError
      else
        let wei : Int :=
          (wholeValue * 10 ^ decimals + fractionValue * 10 ^ (decimals - trimmed.length) : Nat)
        Except.ok (if negative then -wei else wei)
    | _, _, _ => Except.error invalidDecimalError

/-- The character of a decimal digit. -/
def digitChar (d : Fin 10) : Char := Char.ofNat (48 + d.val)

/-- The number a list of decimal digits, most significant first, denotes. -/
def digitsNumber (ds : List (Fin 10)) : Nat :=
  ds.foldl (fun acc d => acc * 10 + d.val) 0

/-- A well-formed decimal string: an optional sign, one or more digits, and optionally a
point followed by one or more digits (no point is written when `frac` is empty). -/
def decimalString (negative : Bool) (whole frac : List (Fin 10)) : String :=
  String.mk ((if negative then ['-'] else []) ++ whole.map digitChar ++
    (if frac = [] then [] else '.' :: frac.map digitChar))

/-- The rational number the decimal string `decimalString negative whole frac` denotes. -/
def decimalValue (negative : Bool) (whole frac : List (Fin 10)) : ℚ :=
  (if negative then -1 else 1) *
    ((digitsNumber whole : ℚ) + (digitsNumber frac : ℚ) / 10 ^ frac.length)

/-! ## Concrete collaborators -/

/-- What a wallet raises when the user declines a prompt. -/
def userRejected : JsError :=
  { name := "Error", message := "User rejected the request." }

/-- One prompt of a wallet whose user approves while approvals are left (the external state)
and declines afterwards. -/
def prompt {α : Type} (a : α) (approvals : Nat) : Outcome α × Nat :=
  if 0 < approvals then (Outcome.ok a, approvals - 1) else (Outcome.throw userRejected, 0)

/-- A browser with wallet object `1` whose user approves a given number of prompts;
the library parses amounts with `parseUnits`. -/
def approving : Collab Nat where
  ethereum := fun _ => some ⟨1⟩
  request := fun s _ _ => prompt "null" s
  send := fun s _ _ _ => prompt "0xabc" s
  signMessage := fun s _ _ => prompt "0x5161" s
  parseUnits := parseUnits
  contractTransfer := fun s _ _ _ => prompt ⟨"0x7a11"⟩ s

/-- A fresh page: nothing called yet. -/
def freshWorld (approvals : Nat) : World Nat :=
  { ext := approvals, trace := [], nextId := 0 }
/-! ## Running the primitives -/

theorem bind_run {σ α β : Type} (m : Js σ α) (f : α → Js σ β) (w : World σ) :
    (m >>= f) w =
      match m w with
      | (Outcome.ok a, w1) => f a w1
      | (Outcome.throw e, w1) => (Outcome.throw e, w1)
      | (Outcome.pending, w1) => (Outcome.pending, w1) := rfl

theorem pure_run {σ α : Type} (a : α) (w : World σ) :
    (pure a : Js σ α) w = (Outcome.ok a, w) := rfl

theorem setRinkeby_run {σ : Type} (C : Collab σ) (w : World σ) :
    setRinkeby C w =
      match switchRequest C w with
      | (Outcome.ok _, w1) => (Outcome.ok (some true), w1)
      | (Outcome.throw _, w1) =>
          (Outcome.ok none, w1.log (Event.consoleLog "error during chain change"))
      | (Outcome.pending, w1) => (Outcome.pending, w1) := by
  simp only [setRinkeby, switchRequest, tryCatch, bind_run, windowEthereum, pure_run, consoleLog]
  cases h : ethereumRequest C (C.ethereum w.ext) switchChainArgs w with
  | mk o w1 => cases o <;> rfl

theorem newEvents_eq {σ α : Type} (m : Js σ α) (w : World σ) (l : List Event)
    (h : (m w).2.trace = w.trace ++ l) : newEvents m w = l := by
  simp [newEvents, h]

theorem getProvider_run_none {σ : Type} (C : Collab σ) (w : World σ)
    (hw : C.ethereum w.ext = none) :
    getProvider C w = (Outcome.throw missingProviderError, w) := by
  simp only [getProvider, bind_run, windowEthereum, pure_run, hw, newWeb3Provider]

theorem getProvider_run {σ : Type} (C : Collab σ) (w : World σ) (wal : WalletObj)
    (hw : C.ethereum w.ext = some wal) :
    getProvider C w =
      (match (authAnswer C w wal).1 with
        | Outcome.ok _ => Outcome.ok (freshProvider w wal)
        | Outcome.throw e => Outcome.throw e
        | Outcome.pending => Outcome.pending,
       afterAuth C w wal) := by
  simp only [getProvider, bind_run, windowEthereum, pure_run, hw, newWeb3Provider, providerSend,
    call, afterAuth, authAnswer, freshProvider, authEvent]
  cases h2 : C.send w.ext ⟨w.nextId, wal⟩ "eth_requestAccounts" [] with
  | mk o s => cases o <;> rfl

theorem getSigner_run {σ : Type} (C : Collab σ) (w : World σ) :
    getSigner C w =
      match getProvider C w with
      | (Outcome.ok p, w1) => (Outcome.ok ⟨p⟩, w1)
      | (Outcome.throw e, w1) => (Outcome.throw e, w1)
      | (Outcome.pending, w1) => (Outcome.pending, w1) := by
  simp only [getSigner, bind_run, pure_run, providerGetSigner]
  cases getProvider C w with
  | mk o w1 => cases o <;> rfl

theorem getProviderData_run {σ : Type} (C : Collab σ) (w : World σ) :
    getProviderData C w =
      match getProvider C w with
      | (Outcome.ok p, w1) => (Outcome.ok p.provider, w1)
      | (Outcome.throw e, w1) => (Outcome.throw e, w1)
      | (Outcome.pending, w1) => (Outcome.pending, w1) := by
  simp only [getProviderData, bind_run, pure_run]
  cases getProvider C w with
  | mk o w1 => cases o <;> rfl

theorem signMessage_run {σ : Type} (C : Collab σ) (w : World σ) :
    signMessage C w =
      match getProvider C w with
      | (Outcome.ok p, w1) =>
        (match (C.signMessage w1.ext ⟨p⟩ "Hello World").1 with
          | Outcome.ok sig =>
            (Outcome.ok sig,
              ⟨(C.signMessage w1.ext ⟨p⟩ "Hello World").2,
                w1.trace ++ [Event.signMessage ⟨p⟩ "Hello World"] ++
                  [Event.consoleLog ("signed: " ++ sig)], w1.nextId⟩)
          | Outcome.throw e =>
            (Outcome.throw e,
              ⟨(C.signMessage w1.ext ⟨p⟩ "Hello World").2,
                w1.trace ++ [Event.signMessage ⟨p⟩ "Hello World"], w1.nextId⟩)
          | Outcome.pending =>
            (Outcome.pending,
              ⟨(C.signMessage w1.ext ⟨p⟩ "Hello World").2,
                w1.trace ++ [Event.signMessage ⟨p⟩ "Hello World"], w1.nextId⟩))
      | (Outcome.throw e, w1) => (Outcome.throw e, w1)
      | (Outcome.pending, w1) => (Outcome.pending, w1) := by
  simp only [signMessage, bind_run, pure_run, getSigner_run]
  cases h : getProvider C w with
  | mk o w1 =>
    cases o with
    | ok p =>
      simp only [signerSignMessage, call, consoleLog, World.log]
      cases h2 : C.signMessage w1.ext ⟨p⟩ "Hello World" with
      | mk o2 s2 => cases o2 <;> rfl
    | throw e => rfl
    | pending => rfl

theorem transfer_run {σ : Type} (C : Collab σ) (token_address recipient amount : String)
    (decimals : Nat) (w : World σ) :
    transfer C token_address recipient amount decimals w =
      match getProvider C w with
      | (Outcome.ok p, w1) =>
        (match C.parseUnits amount decimals with
          | Except.error e => (Outcome.throw e, w1)
          | Except.ok n =>
            (match (C.contractTransfer w1.ext ⟨token_address, abi, ⟨p⟩⟩ recipient n).1 with
              | Outcome.ok tx => Outcome.ok tx.hash
              | Outcome.throw e => Outcome.throw e
              | Outcome.pending => Outcome.pending,
             ⟨(C.contractTransfer w1.ext ⟨token_address, abi, ⟨p⟩⟩ recipient n).2,
               w1.trace ++
                 [Event.contractCall ⟨token_address, abi, ⟨p⟩⟩ "transfer" recipient n],
               w1.nextId⟩))
      | (Outcome.throw e, w1) => (Outcome.throw e, w1)
      | (Outcome.pending, w1) => (Outcome.pending, w1) := by
  simp only [transfer, bind_run, pure_run, getSigner_run]
  cases h : getProvider C w with
  | mk o w1 =>
    cases o with
    | ok p =>
      simp only [utilsParseUnits, newContract]
      cases h2 : C.parseUnits amount decimals with
      | error e => rfl
      | ok n =>
        simp only [contractTransfer, call]
        cases h3 : C.contractTransfer w1.ext ⟨token_address, abi, ⟨p⟩⟩ recipient n with
        | mk o3 s3 => cases o3 <;> rfl
    | throw e => rfl
    | pending => rfl

theorem transfer_ok_inv {σ : Type} (C : Collab σ) (w : World σ)
    (token_address recipient amount : String) (decimals : Nat) (h : String)
    (hok : (transfer C token_address recipient amount decimals w).1 = Outcome.ok h) :
    ∃ wal n tx v,
      C.parseUnits amount decimals = Except.ok n ∧
      C.ethereum w.ext = some wal ∧
      (authAnswer C w wal).1 = Outcome.ok v ∧
      (C.contractTransfer (authAnswer C w wal).2
          ⟨token_address, abi, ⟨freshProvider w wal⟩⟩ recipient n).1 = Outcome.ok tx ∧
      h = tx.hash := by
  rw [transfer_run] at hok
  cases hw : C.ethereum w.ext with
  | none => rw [getProvider_run_none C w hw] at hok; simp at hok
  | some wal =>
    rw [getProvider_run C w wal hw] at hok
    cases ha : (authAnswer C w wal).1 with
    | throw e => rw [ha] at hok; simp at hok
    | pending => rw [ha] at hok; simp at hok
    | ok v =>
      rw [ha] at hok
      cases hp : C.parseUnits amount decimals with
      | error e => rw [hp] at hok; simp at hok
      | ok n =>
        simp only [hp, afterAuth] at hok
        cases ht : (C.contractTransfer (authAnswer C w wal).2
            ⟨token_address, abi, ⟨freshProvider w wal⟩⟩ recipient n).1 with
        | throw e => rw [ht] at hok; simp at hok
        | pending => rw [ht] at hok; simp at hok
        | ok tx =>
          rw [ht] at hok
          simp only [Outcome.ok.injEq] at hok
          exact ⟨wal, n, tx, v, rfl, rfl, ha, ht, hok.symm⟩

theorem getSigner_events {σ : Type} (C : Collab σ) (w : World σ) (wal : WalletObj)
    (hw : C.ethereum w.ext = some wal) :
    newEvents (getSigner C) w = [authEvent (freshProvider w wal)] := by
  apply newEvents_eq
  rw [getSigner_run, getProvider_run C w wal hw]
  cases (authAnswer C w wal).1 <;> rfl

theorem getProviderData_events {σ : Type} (C : Collab σ) (w : World σ) (wal : WalletObj)
    (hw : C.ethereum w.ext = some wal) :
    newEvents (getProviderData C) w = [authEvent (freshProvider w wal)] := by
  apply newEvents_eq
  rw [getProviderData_run, getProvider_run C w wal hw]
  cases (authAnswer C w wal).1 <;> rfl

theorem signMessage_events {σ : Type} (C : Collab σ) (w : World σ) (wal : WalletObj)
    (hw : C.ethereum w.ext = some wal) :
    ∃ rest, newEvents (signMessage C) w = authEvent (freshProvider w wal) :: rest := by
  cases ha : (authAnswer C w wal).1 with
  | ok v =>
    cases hs : (C.signMessage (authAnswer C w wal).2 ⟨freshProvider w wal⟩ "Hello World").1 with
    | ok sig =>
      refine ⟨[Event.signMessage ⟨freshProvider w wal⟩ "Hello World",
        Event.consoleLog ("signed: " ++ sig)], ?_⟩
      apply newEvents_eq
      rw [signMessage_run, getProvider_run C w wal hw, ha]
      simp only [afterAuth, hs, List.append_assoc, List.singleton_append]
      rfl
    | throw e =>
      refine ⟨[Event.signMessage ⟨freshProvider w wal⟩ "Hello World"], ?_⟩
      apply newEvents_eq
      rw [signMessage_run, getProvider_run C w wal hw, ha]
      simp only [afterAuth, hs, List.append_assoc, List.singleton_append]
    | pending =>
      refine ⟨[Event.signMessage ⟨freshProvider w wal⟩ "Hello World"], ?_⟩
      apply newEvents_eq
      rw [signMessage_run, getProvider_run C w wal hw, ha]
      simp only [afterAuth, hs, List.append_assoc, List.singleton_append]
  | throw e =>
    refine ⟨[], ?_⟩
    apply newEvents_eq
    rw [signMessage_run, getProvider_run C w wal hw, ha]
    rfl
  | pending =>
    refine ⟨[], ?_⟩
    apply newEvents_eq
    rw [signMessage_run, getProvider_run C w wal hw, ha]
    rfl

theorem transfer_events {σ : Type} (C : Collab σ) (w : World σ) (wal : WalletObj)
    (token_address recipient amount : String) (decimals : Nat)
    (hw : C.ethereum w.ext = some wal) :
    ∃ rest, newEvents (transfer C token_address recipient amount decimals) w
      = authEvent (freshProvider w wal) :: rest := by
  cases ha : (authAnswer C w wal).1 with
  | ok v =>
    cases hp : C.parseUnits amount decimals with
    | error e =>
      refine ⟨[], ?_⟩
      apply newEvents_eq
      rw [transfer_run, getProvider_run C w wal hw, ha]
      simp only [hp, afterAuth]
    | ok n =>
      refine ⟨[Event.contractCall ⟨token_address, abi, ⟨freshProvider w wal⟩⟩ "transfer"
        recipient n], ?_⟩
      apply newEvents_eq
      rw [transfer_run, getProvider_run C w wal hw, ha]
      simp only [hp, afterAuth, List.append_assoc, List.singleton_append]
  | throw e =>
    refine ⟨[], ?_⟩
    apply newEvents_eq
    rw [transfer_run, getProvider_run C w wal hw, ha]
    rfl
  | pending =>
    refine ⟨[], ?_⟩
    apply newEvents_eq
    rw [transfer_run, getProvider_run C w wal hw, ha]
    rfl

/-! ## The decimal parser on well-formed strings -/

theorem digitValue_digitChar (d : Fin 10) : digitValue (digitChar d) = some d.val := by
  revert d; decide

theorem digitChar_ne_dot (d : Fin 10) : digitChar d ≠ '.' := by
  revert d; decide

theorem digitChar_ne_minus (d : Fin 10) : digitChar d ≠ '-' := by
  revert d; decide

theorem digitsValueFrom_map (ds : List (Fin 10)) (acc : Nat) :
    digitsValueFrom acc (ds.map digitChar) = some (ds.foldl (fun a d => a * 10 + d.val) acc) := by
  induction ds generalizing acc with
  | nil => rfl
  | cons d ds ih =>
    simp only [List.map_cons, digitsValueFrom, digitValue_digitChar, List.foldl_cons]
    exact ih _

theorem splitAtDot_digits (ds : List (Fin 10)) :
    splitAtDot (ds.map digitChar) = (ds.map digitChar, none) := by
  induction ds with
  | nil => rfl
  | cons d ds ih =>
    simp only [List.map_cons, splitAtDot, digitChar_ne_dot, if_false, ih]

theorem splitAtDot_digits_dot (ds : List (Fin 10)) (rest : List Char) :
    splitAtDot (ds.map digitChar ++ '.' :: rest) = (ds.map digitChar, some rest) := by
  induction ds with
  | nil => simp [splitAtDot]
  | cons d ds ih =>
    show splitAtDot (digitChar d :: (ds.map digitChar ++ '.' :: rest)) = _
    rw [splitAtDot, if_neg (digitChar_ne_dot d), ih]
    rfl

theorem dropTrailingZeros_append (l : List Char) :
    ∃ k, l = dropTrailingZeros l ++ List.replicate k '0' := by
  induction l with
  | nil => exact ⟨0, rfl⟩
  | cons c cs ih =>
    obtain ⟨k, hk⟩ := ih
    by_cases hc : c = '0' ∧ dropTrailingZeros cs = []
    · refine ⟨k + 1, ?_⟩
      simp only [dropTrailingZeros, hc, and_self, if_true, List.nil_append]
      rw [hc.2, List.nil_append] at hk
      rw [hk, List.replicate_succ]
    · refine ⟨k, ?_⟩
      simp only [dropTrailingZeros, hc, if_false, List.cons_append]
      rw [← hk]

theorem digitsValueFrom_zeros (k acc : Nat) :
    digitsValueFrom acc (List.replicate k '0') = some (acc * 10 ^ k) := by
  induction k generalizing acc with
  | zero => simp [digitsValueFrom]
  | succ k ih =>
    have h0 : digitValue '0' = some 0 := by decide
    simp only [List.replicate_succ, digitsValueFrom, h0]
    rw [ih]
    congr 1
    ring

theorem digitsValueFrom_append_zeros (t : List Char) (k acc : Nat) :
    digitsValueFrom acc (t ++ List.replicate k '0')
      = (digitsValueFrom acc t).map (fun x => x * 10 ^ k) := by
  induction t generalizing acc with
  | nil => simp [digitsValueFrom, digitsValueFrom_zeros]
  | cons c cs ih =>
    simp only [List.cons_append, digitsValueFrom]
    cases digitValue c with
    | none => rfl
    | some d => exact ih _

/-- The integer of `parseUnits` on a well-formed decimal string. -/
theorem parseUnits_decimalString (negative : Bool) (whole frac : List (Fin 10))
    (decimals : Nat) (hwhole : whole ≠ []) (hfrac : frac.length ≤ decimals) :
    parseUnits (decimalString negative whole frac) decimals =
      Except.ok
        (if negative then
          -((digitsNumber whole * 10 ^ decimals
              + digitsNumber frac * 10 ^ (decimals - frac.length) : Nat) : Int)
        else
          ((digitsNumber whole * 10 ^ decimals
              + digitsNumber frac * 10 ^ (decimals - frac.length) : Nat) : Int)) := by
  obtain ⟨d0, ds, rfl⟩ := List.exists_cons_of_ne_nil hwhole
  have hbody : ∀ body : List Char, ∀ fraction : List Char,
      body = (d0 :: ds).map digitChar ++ (if frac = [] then [] else '.' :: frac.map digitChar) →
      fraction = frac.map digitChar →
      ¬ (body = [] ∨ body = ['.']) ∧ (splitAtDot body).1 = (d0 :: ds).map digitChar ∧
        ((splitAtDot body).2).getD [] = fraction := by
    intro body fraction hb hf
    subst hb hf
    by_cases hfr : frac = []
    · subst hfr
      simp only [if_true, List.append_nil, splitAtDot_digits]
      simp [digitChar_ne_dot]
    · simp only [hfr, if_false, splitAtDot_digits_dot]
      simp [digitChar_ne_dot]
  obtain ⟨k, hk⟩ := dropTrailingZeros_append (frac.map digitChar)
  have hlen : (dropTrailingZeros (frac.map digitChar)).length + k = frac.length := by
    have := congrArg List.length hk
    simp only [List.length_map, List.length_append, List.length_replicate] at this
    omega
  have hF := digitsValueFrom_map frac 0
  have hF2 := hF
  rw [hk, digitsValueFrom_append_zeros] at hF2
  obtain ⟨T, hT, hTk⟩ : ∃ T, digitsValueFrom 0 (dropTrailingZeros (frac.map digitChar)) = some T ∧
      T * 10 ^ k = digitsNumber frac := by
    cases hT : digitsValueFrom 0 (dropTrailingZeros (frac.map digitChar)) with
    | none => rw [hT] at hF2; simp at hF2
    | some T =>
      rw [hT] at hF2
      simp only [Option.map_some', Option.some.injEq] at hF2
      exact ⟨T, rfl, hF2⟩
  have hW := digitsValueFrom_map (d0 :: ds) 0
  have hval : T * 10 ^ (decimals - (dropTrailingZeros (frac.map digitChar)).length)
      = digitsNumber frac * 10 ^ (decimals - frac.length) := by
    rw [← hTk, mul_assoc, ← pow_add]
    congr 2
    omega
  have hnot : ¬ decimals < (dropTrailingZeros (frac.map digitChar)).length := by omega
  cases negative with
  | false =>
    have hcs : (decimalString false (d0 :: ds) frac).toList =
        (d0 :: ds).map digitChar ++ (if frac = [] then [] else '.' :: frac.map digitChar) := by
      simp [decimalString]
    obtain ⟨h1, h2, h3⟩ := hbody _ _ hcs rfl
    have hneg : ¬ ((decimalString false (d0 :: ds) frac).toList.head? = some '-') := by
      rw [hcs]
      simp [digitChar_ne_minus]
    unfold parseUnits
    simp only [hneg, if_false, h1, h2, h3, hW, hF, hT, hnot, hval]
    rfl
  | true =>
    have hcs : (decimalString true (d0 :: ds) frac).toList =
        '-' :: ((d0 :: ds).map digitChar ++
          (if frac = [] then [] else '.' :: frac.map digitChar)) := by
      simp [decimalString]
    have htail : (decimalString true (d0 :: ds) frac).toList.tail =
        (d0 :: ds).map digitChar ++ (if frac = [] then [] else '.' :: frac.map digitChar) := by
      rw [hcs]
      rfl
    obtain ⟨h1, h2, h3⟩ := hbody _ _ htail rfl
    have hneg : (decimalString true (d0 :: ds) frac).toList.head? = some '-' := by
      rw [hcs]
      rfl
    unfold parseUnits
    simp only [hneg, if_true, h1, h2, h3, hW, hF, hT, hnot, hval]
    rfl

theorem scaled_cast (W F lf decimals : Nat) (hlf : lf ≤ decimals) :
    (((W * 10 ^ decimals + F * 10 ^ (decimals - lf) : Nat) : Int) : ℚ)
      = ((W : ℚ) + (F : ℚ) / 10 ^ lf) * 10 ^ decimals := by
  have hsplit : (10 : ℚ) ^ decimals = 10 ^ lf * 10 ^ (decimals - lf) := by
    rw [← pow_add]
    congr 1
    omega
  have hne : (10 : ℚ) ^ lf ≠ 0 := pow_ne_zero _ (by norm_num)
  push_cast
  rw [hsplit]
  field_simp
  ring

/-! ## Claims -/

/-- C1: whatever the wallet does, `setRinkeby()` never throws to its caller; it returns `true`
exactly when the `wallet_switchEthereumChain` request completes without error, and returns
`undefined` exactly when that request is rejected or raises an error (a missing wallet object
raises a `TypeError` at the request). -/
theorem setRinkeby_swallows_failures {σ : Type} (C : Collab σ) (w : World σ) :
    (∀ e, (setRinkeby C w).1 ≠ Outcome.throw e) ∧
    ((setRinkeby C w).1 = Outcome.ok (some true) ↔
      ∃ wal v, C.ethereum w.ext = some wal ∧
        (C.request w.ext wal ⟨"wallet_switchEthereumChain", [[("chainId", "0x4")]]⟩).1
          = Outcome.ok v) ∧
    ((setRinkeby C w).1 = Outcome.ok none ↔
      (C.ethereum w.ext = none ∨
        ∃ wal e, C.ethereum w.ext = some wal ∧
          (C.request w.ext wal ⟨"wallet_switchEthereumChain", [[("chainId", "0x4")]]⟩).1
            = Outcome.throw e)) := by
  rw [setRinkeby_run]
  simp only [switchRequest, bind_run, windowEthereum]
  cases h : C.ethereum w.ext with
  | none => simp [ethereumRequest]
  | some wal =>
    simp only [ethereumRequest, call, switchChainArgs]
    cases h2 : C.request w.ext wal ⟨"wallet_switchEthereumChain", [[("chainId", "0x4")]]⟩ with
    | mk o s => cases o <;> simp [h2]

/-- C9: with a wallet injected, one call of `setRinkeby()` sends exactly one request to it,
with method `wallet_switchEthereumChain` and params `[{chainId: "0x4"}]`; nothing follows a
failure but the console line, so there is no retry, and no `provider.send` (hence no
`eth_requestAccounts`) is ever made. -/
theorem setRinkeby_single_request {σ : Type} (C : Collab σ) (w : World σ) (wal : WalletObj)
    (hw : C.ethereum w.ext = some wal) :
    newEvents (setRinkeby C) w =
      Event.request wal ⟨"wallet_switchEthereumChain", [[("chainId", "0x4")]]⟩ ::
        (match (C.request w.ext wal
            ⟨"wallet_switchEthereumChain", [[("chainId", "0x4")]]⟩).1 with
          | Outcome.throw _ => [Event.consoleLog "error during chain change"]
          | _ => []) ∧
    (newEvents (setRinkeby C) w).filter Event.isRequest =
      [Event.request wal ⟨"wallet_switchEthereumChain", [[("chainId", "0x4")]]⟩] ∧
    (newEvents (setRinkeby C) w).filter Event.isSend = [] := by
  have key : newEvents (setRinkeby C) w =
      Event.request wal ⟨"wallet_switchEthereumChain", [[("chainId", "0x4")]]⟩ ::
        (match (C.request w.ext wal
            ⟨"wallet_switchEthereumChain", [[("chainId", "0x4")]]⟩).1 with
          | Outcome.throw _ => [Event.consoleLog "error during chain change"]
          | _ => []) := by
    apply newEvents_eq
    rw [setRinkeby_run]
    simp only [switchRequest, bind_run, windowEthereum, hw, ethereumRequest, call,
      switchChainArgs, World.log]
    cases h2 : C.request w.ext wal ⟨"wallet_switchEthereumChain", [[("chainId", "0x4")]]⟩ with
    | mk o s => cases o <;> simp
  refine ⟨key, ?_, ?_⟩
  · rw [key]
    cases h2 : C.request w.ext wal ⟨"wallet_switchEthereumChain", [[("chainId", "0x4")]]⟩ with
    | mk o s => cases o <;> simp [Event.isRequest]
  · rw [key]
    cases h2 : C.request w.ext wal ⟨"wallet_switchEthereumChain", [[("chainId", "0x4")]]⟩ with
    | mk o s => cases o <;> simp [Event.isSend]

/-- Witness for C9: a wallet whose user declines the switch. -/
theorem setRinkeby_single_request_witness :
    approving.ethereum (freshWorld 0).ext = some ⟨1⟩ ∧
    newEvents (setRinkeby approving) (freshWorld 0) =
      [Event.request ⟨1⟩ ⟨"wallet_switchEthereumChain", [[("chainId", "0x4")]]⟩,
        Event.consoleLog "error during chain change"] :=
  ⟨rfl, (setRinkeby_single_request approving (freshWorld 0) ⟨1⟩ rfl).1⟩

/-- C7: when the authorization request of a call succeeds, `getProviderData()` returns the
`provider` field of the provider it built around the injected wallet object, which is that
object itself, untouched, and the only call it made is that one `eth_requestAccounts`
request; and in any world a returned value is the injected object of a succeeded request. -/
theorem getProviderData_returns_wallet {σ : Type} (C : Collab σ) (w : World σ)
    (wal : WalletObj) (v : RpcResult)
    (hw : C.ethereum w.ext = some wal) (ha : (authAnswer C w wal).1 = Outcome.ok v) :
    (getProviderData C w).1 = Outcome.ok (freshProvider w wal).provider ∧
    (freshProvider w wal).provider = wal ∧
    newEvents (getProviderData C) w =
      [Event.send (freshProvider w wal) "eth_requestAccounts" []] ∧
    (∀ (w2 : World σ) (x : WalletObj), (getProviderData C w2).1 = Outcome.ok x →
      C.ethereum w2.ext = some x ∧ ∃ v2, (authAnswer C w2 x).1 = Outcome.ok v2) := by
  refine ⟨?_, rfl, ?_, ?_⟩
  · rw [getProviderData_run, getProvider_run C w wal hw, ha]
  · apply newEvents_eq
    rw [getProviderData_run, getProvider_run C w wal hw, ha]
    rfl
  · intro w2 x hx
    rw [getProviderData_run] at hx
    cases h : C.ethereum w2.ext with
    | none => rw [getProvider_run_none C w2 h] at hx; simp at hx
    | some wal2 =>
      rw [getProvider_run C w2 wal2 h] at hx
      cases h2 : (authAnswer C w2 wal2).1 with
      | ok v2 =>
        rw [h2] at hx
        simp only [freshProvider, Outcome.ok.injEq] at hx
        subst hx
        exact ⟨rfl, v2, h2⟩
      | throw e => rw [h2] at hx; simp at hx
      | pending => rw [h2] at hx; simp at hx

/-- Witness for C7: the user approves the authorization prompt. -/
theorem getProviderData_returns_wallet_witness :
    approving.ethereum (freshWorld 1).ext = some ⟨1⟩ ∧
    (authAnswer approving (freshWorld 1) ⟨1⟩).1 = Outcome.ok "0xabc" ∧
    (getProviderData approving (freshWorld 1)).1 = Outcome.ok ⟨1⟩ :=
  ⟨rfl, rfl, (getProviderData_returns_wallet approving (freshWorld 1) ⟨1⟩ "0xabc" rfl rfl).1⟩

/-- C4: when authorization and signing succeed, `signMessage()` asks the signer of the
provider it just authorized to sign the literal `"Hello World"` (the only signature request
of the call), logs the result and returns it unchanged. -/
theorem signMessage_signs_hello_world {σ : Type} (C : Collab σ) (w : World σ)
    (wal : WalletObj) (v : RpcResult) (sig : String)
    (hw : C.ethereum w.ext = some wal) (ha : (authAnswer C w wal).1 = Outcome.ok v)
    (hs : (C.signMessage (authAnswer C w wal).2 ⟨freshProvider w wal⟩ "Hello World").1
      = Outcome.ok sig) :
    (signMessage C w).1 = Outcome.ok sig ∧
    newEvents (signMessage C) w =
      [Event.send (freshProvider w wal) "eth_requestAccounts" [],
        Event.signMessage ⟨freshProvider w wal⟩ "Hello World",
        Event.consoleLog ("signed: " ++ sig)] ∧
    (newEvents (signMessage C) w).filter Event.isSignMessage =
      [Event.signMessage ⟨freshProvider w wal⟩ "Hello World"] := by
  have key : newEvents (signMessage C) w =
      [Event.send (freshProvider w wal) "eth_requestAccounts" [],
        Event.signMessage ⟨freshProvider w wal⟩ "Hello World",
        Event.consoleLog ("signed: " ++ sig)] := by
    apply newEvents_eq
    rw [signMessage_run, getProvider_run C w wal hw, ha]
    simp only [afterAuth, hs, authEvent, List.append_assoc, List.singleton_append]
    rfl
  refine ⟨?_, key, ?_⟩
  · rw [signMessage_run, getProvider_run C w wal hw, ha]
    simp only [afterAuth, hs]
  · rw [key]
    simp [Event.isSignMessage]

/-- Witness for C4: the user approves both prompts. -/
theorem signMessage_signs_hello_world_witness :
    approving.ethereum (freshWorld 2).ext = some ⟨1⟩ ∧
    (authAnswer approving (freshWorld 2) ⟨1⟩).1 = Outcome.ok "0xabc" ∧
    (approving.signMessage (authAnswer approving (freshWorld 2) ⟨1⟩).2
      ⟨freshProvider (freshWorld 2) ⟨1⟩⟩ "Hello World").1 = Outcome.ok "0x5161" ∧
    (signMessage approving (freshWorld 2)).1 = Outcome.ok "0x5161" :=
  ⟨rfl, rfl, rfl,
    (signMessage_signs_hello_world approving (freshWorld 2) ⟨1⟩ "0xabc" "0x5161" rfl rfl rfl).1⟩

/-- C6: a call of `transfer(token_address, recipient, amount, decimals)` that returns a value
has invoked exactly one contract method: `transfer`, on the contract built from
`token_address`, the one-entry ABI and the signer of the provider just authorized, with
arguments `recipient` and `parseUnits(amount, decimals)`; the value returned is the `hash`
of the transaction object that invocation resolved to. -/
theorem transfer_invokes_contract_once {σ : Type} (C : Collab σ) (w : World σ)
    (token_address recipient amount : String) (decimals : Nat) (h : String)
    (hok : (transfer C token_address recipient amount decimals w).1 = Outcome.ok h) :
    ∃ wal n tx,
      C.ethereum w.ext = some wal ∧
      C.parseUnits amount decimals = Except.ok n ∧
      (newEvents (transfer C token_address recipient amount decimals) w).filter
          Event.isContractCall =
        [Event.contractCall
          ⟨token_address,
            ["function transfer(address recipient, uint256 amount) external returns(bool)"],
            ⟨freshProvider w wal⟩⟩ "transfer" recipient n] ∧
      (C.contractTransfer (authAnswer C w wal).2
          ⟨token_address,
            ["function transfer(address recipient, uint256 amount) external returns(bool)"],
            ⟨freshProvider w wal⟩⟩ recipient n).1 = Outcome.ok tx ∧
      h = tx.hash := by
  obtain ⟨wal, n, tx, v, hp, hw, ha, ht, hh⟩ :=
    transfer_ok_inv C w token_address recipient amount decimals h hok
  refine ⟨wal, n, tx, hw, hp, ?_, ht, hh⟩
  have key : newEvents (transfer C token_address recipient amount decimals) w =
      [authEvent (freshProvider w wal),
        Event.contractCall ⟨token_address, abi, ⟨freshProvider w wal⟩⟩ "transfer"
          recipient n] := by
    apply newEvents_eq
    rw [transfer_run, getProvider_run C w wal hw, ha]
    simp only [hp, afterAuth, List.append_assoc, List.singleton_append]
  rw [key]
  simp [Event.isContractCall, authEvent, abi]

/-- Witness for C6: the user approves the authorization and the transaction. -/
theorem transfer_invokes_contract_once_witness :
    (transfer approving "0xTOKEN" "0xRECIPIENT" "10.5" 18 (freshWorld 2)).1
      = Outcome.ok "0x7a11" ∧
    ∃ wal n tx,
      approving.ethereum (freshWorld 2).ext = some wal ∧
      approving.parseUnits "10.5" 18 = Except.ok n ∧
      (newEvents (transfer approving "0xTOKEN" "0xRECIPIENT" "10.5" 18) (freshWorld 2)).filter
          Event.isContractCall =
        [Event.contractCall
          ⟨"0xTOKEN",
            ["function transfer(address recipient, uint256 amount) external returns(bool)"],
            ⟨freshProvider (freshWorld 2) wal⟩⟩ "transfer" "0xRECIPIENT" n] ∧
      (approving.contractTransfer (authAnswer approving (freshWorld 2) wal).2
          ⟨"0xTOKEN",
            ["function transfer(address recipient, uint256 amount) external returns(bool)"],
            ⟨freshProvider (freshWorld 2) wal⟩⟩ "0xRECIPIENT" n).1 = Outcome.ok tx ∧
      "0x7a11" = tx.hash :=
  ⟨rfl, transfer_invokes_contract_once approving (freshWorld 2) "0xTOKEN" "0xRECIPIENT" "10.5" 18
    "0x7a11" rfl⟩

/-- C2, as stated, fails: with a user who approves every prompt, `transfer` called with the
malformed amount `"abc"` fails with the parser's error only after the `eth_requestAccounts`
request has been issued; that request is in the trace when the failure occurs. -/
theorem malformed_amount_still_requests_accounts :
    (transfer approving "0xTOKEN" "0xRECIPIENT" "abc" 18 (freshWorld 5)).1
      = Outcome.throw invalidDecimalError ∧
    (transfer approving "0xTOKEN" "0xRECIPIENT" "abc" 18 (freshWorld 5)).2.trace
      = [Event.send ⟨0, ⟨1⟩⟩ "eth_requestAccounts" []] ∧
    ¬ (∀ ev ∈ (transfer approving "0xTOKEN" "0xRECIPIENT" "abc" 18 (freshWorld 5)).2.trace,
        Event.isSend ev = false) := by
  refine ⟨rfl, rfl, ?_⟩
  intro hall
  have h := hall (Event.send ⟨0, ⟨1⟩⟩ "eth_requestAccounts" [])
    (by
      have ht : (transfer approving "0xTOKEN" "0xRECIPIENT" "abc" 18 (freshWorld 5)).2.trace
          = [Event.send ⟨0, ⟨1⟩⟩ "eth_requestAccounts" []] := rfl
      rw [ht]
      exact List.mem_singleton.mpr rfl)
  simp [Event.isSend] at h

/-- C2, amended: when the library's parser rejects `amount`, a call of `transfer` never
returns a value and never invokes a contract method; with a wallet injected, the one call it
has made is the `eth_requestAccounts` request (authorization comes before parsing), and when
that request succeeds the call fails with the parser's error. -/
theorem transfer_malformed_amount {σ : Type} (C : Collab σ) (w : World σ)
    (token_address recipient amount : String) (decimals : Nat) (e : JsError)
    (hp : C.parseUnits amount decimals = Except.error e) :
    (∀ h, (transfer C token_address recipient amount decimals w).1 ≠ Outcome.ok h) ∧
    (newEvents (transfer C token_address recipient amount decimals) w).filter
        Event.isContractCall = [] ∧
    (∀ wal, C.ethereum w.ext = some wal →
      newEvents (transfer C token_address recipient amount decimals) w =
        [Event.send (freshProvider w wal) "eth_requestAccounts" []]) ∧
    (∀ wal v, C.ethereum w.ext = some wal → (authAnswer C w wal).1 = Outcome.ok v →
      (transfer C token_address recipient amount decimals w).1 = Outcome.throw e) := by
  have hev : ∀ wal, C.ethereum w.ext = some wal →
      newEvents (transfer C token_address recipient amount decimals) w =
        [Event.send (freshProvider w wal) "eth_requestAccounts" []] := by
    intro wal hw
    apply newEvents_eq
    rw [transfer_run, getProvider_run C w wal hw]
    cases ha : (authAnswer C w wal).1 <;> simp only [hp, afterAuth, authEvent]
  refine ⟨?_, ?_, hev, ?_⟩
  · intro h hok
    obtain ⟨_, n, _, _, hn, _⟩ :=
      transfer_ok_inv C w token_address recipient amount decimals h hok
    rw [hp] at hn
    cases hn
  · cases hw : C.ethereum w.ext with
    | none =>
      have : newEvents (transfer C token_address recipient amount decimals) w = [] := by
        apply newEvents_eq
        rw [transfer_run, getProvider_run_none C w hw]
        simp
      rw [this]
      rfl
    | some wal =>
      rw [hev wal hw]
      simp [Event.isContractCall]
  · intro wal v hw ha
    rw [transfer_run, getProvider_run C w wal hw, ha]
    simp only [hp]

/-- Witness for C2, amended: the amount `"abc"` with a user who approves every prompt. -/
theorem transfer_malformed_amount_witness :
    approving.parseUnits "abc" 18 = Except.error invalidDecimalError ∧
    (newEvents (transfer approving "0xTOKEN" "0xRECIPIENT" "abc" 18) (freshWorld 5)).filter
        Event.isContractCall = [] :=
  ⟨rfl, (transfer_malformed_amount approving (freshWorld 5) "0xTOKEN" "0xRECIPIENT" "abc" 18
    invalidDecimalError rfl).2.1⟩

/-- C5: in `getProvider`, `getSigner`, `getProviderData`, `signMessage` and `transfer`, a
collaborator step that fails with an error `e` makes the operation itself fail with the very
same `e` (so it returns no value): the `eth_requestAccounts` request in all five, the
signature request in `signMessage`, the amount parsing and the contract `transfer` call in
`transfer`. -/
theorem failures_propagate_unchanged {σ : Type} (C : Collab σ) (w : World σ)
    (wal : WalletObj) (e : JsError) (token_address recipient amount : String) (decimals : Nat)
    (hw : C.ethereum w.ext = some wal) :
    ((authAnswer C w wal).1 = Outcome.throw e →
      (getProvider C w).1 = Outcome.throw e ∧
      (getSigner C w).1 = Outcome.throw e ∧
      (getProviderData C w).1 = Outcome.throw e ∧
      (signMessage C w).1 = Outcome.throw e ∧
      (transfer C token_address recipient amount decimals w).1 = Outcome.throw e) ∧
    (∀ v, (authAnswer C w wal).1 = Outcome.ok v →
      ((C.signMessage (authAnswer C w wal).2 ⟨freshProvider w wal⟩ "Hello World").1
          = Outcome.throw e →
        (signMessage C w).1 = Outcome.throw e) ∧
      (C.parseUnits amount decimals = Except.error e →
        (transfer C token_address recipient amount decimals w).1 = Outcome.throw e) ∧
      (∀ n, C.parseUnits amount decimals = Except.ok n →
        (C.contractTransfer (authAnswer C w wal).2
            ⟨token_address, abi, ⟨freshProvider w wal⟩⟩ recipient n).1 = Outcome.throw e →
        (transfer C token_address recipient amount decimals w).1 = Outcome.throw e)) := by
  refine ⟨?_, ?_⟩
  · intro ha
    have hp : (getProvider C w).1 = Outcome.throw e := by
      rw [getProvider_run C w wal hw, ha]
    refine ⟨hp, ?_, ?_, ?_, ?_⟩
    · rw [getSigner_run, getProvider_run C w wal hw, ha]
    · rw [getProviderData_run, getProvider_run C w wal hw, ha]
    · rw [signMessage_run, getProvider_run C w wal hw, ha]
    · rw [transfer_run, getProvider_run C w wal hw, ha]
  · intro v ha
    refine ⟨?_, ?_, ?_⟩
    · intro hs
      rw [signMessage_run, getProvider_run C w wal hw, ha]
      simp only [afterAuth, hs]
    · intro hp
      rw [transfer_run, getProvider_run C w wal hw, ha]
      simp only [hp]
    · intro n hp ht
      rw [transfer_run, getProvider_run C w wal hw, ha]
      simp only [hp, afterAuth, ht]

/-- Witness for C5: the user declines the authorization prompt; the user approves it and
declines the signature; the amount is malformed; the user declines the transaction. -/
theorem failures_propagate_unchanged_witness :
    ((authAnswer approving (freshWorld 0) ⟨1⟩).1 = Outcome.throw userRejected ∧
      (getProviderData approving (freshWorld 0)).1 = Outcome.throw userRejected) ∧
    ((approving.signMessage (authAnswer approving (freshWorld 1) ⟨1⟩).2
        ⟨freshProvider (freshWorld 1) ⟨1⟩⟩ "Hello World").1 = Outcome.throw userRejected ∧
      (signMessage approving (freshWorld 1)).1 = Outcome.throw userRejected) ∧
    (approving.parseUnits "abc" 18 = Except.error invalidDecimalError ∧
      (transfer approving "0xTOKEN" "0xRECIPIENT" "abc" 18 (freshWorld 1)).1
        = Outcome.throw invalidDecimalError) ∧
    (approving.parseUnits "10.5" 18 = Except.ok 10500000000000000000 ∧
      (transfer approving "0xTOKEN" "0xRECIPIENT" "10.5" 18 (freshWorld 1)).1
        = Outcome.throw userRejected) :=
  ⟨⟨rfl, ((failures_propagate_unchanged approving (freshWorld 0) ⟨1⟩ userRejected
      "0xTOKEN" "0xRECIPIENT" "10.5" 18 rfl).1 rfl).2.2.1⟩,
   ⟨rfl, ((failures_propagate_unchanged approving (freshWorld 1) ⟨1⟩ userRejected
      "0xTOKEN" "0xRECIPIENT" "10.5" 18 rfl).2 "0xabc" rfl).1 rfl⟩,
   ⟨rfl, ((failures_propagate_unchanged approving (freshWorld 1) ⟨1⟩ invalidDecimalError
      "0xTOKEN" "0xRECIPIENT" "abc" 18 rfl).2 "0xabc" rfl).2.1 rfl⟩,
   ⟨rfl, ((failures_propagate_unchanged approving (freshWorld 1) ⟨1⟩ userRejected
      "0xTOKEN" "0xRECIPIENT" "10.5" 18 rfl).2 "0xabc" rfl).2.2 10500000000000000000 rfl rfl⟩⟩

/-- C10: in any execution of `signMessage()` or `transfer(...)`, a signature request or a
contract invocation in the trace of the call comes right after an `eth_requestAccounts`
request of that same call which succeeded, and its signer is the one derived from the
provider that made that request; when authorization does not succeed (rejected, never
answered, or no wallet), the call issues no signature request and no contract invocation. -/
theorem signer_used_only_after_authorization {σ : Type} (C : Collab σ) (w : World σ)
    (token_address recipient amount : String) (decimals : Nat) :
    (∀ sg msg, Event.signMessage sg msg ∈ newEvents (signMessage C) w →
      ∃ wal v rest, C.ethereum w.ext = some wal ∧ (authAnswer C w wal).1 = Outcome.ok v ∧
        sg = providerGetSigner (freshProvider w wal) ∧
        newEvents (signMessage C) w =
          Event.send (freshProvider w wal) "eth_requestAccounts" [] ::
            Event.signMessage sg msg :: rest) ∧
    (∀ c m r n, Event.contractCall c m r n ∈
        newEvents (transfer C token_address recipient amount decimals) w →
      ∃ wal v, C.ethereum w.ext = some wal ∧ (authAnswer C w wal).1 = Outcome.ok v ∧
        c.signer = providerGetSigner (freshProvider w wal) ∧
        newEvents (transfer C token_address recipient amount decimals) w =
          [Event.send (freshProvider w wal) "eth_requestAccounts" [],
            Event.contractCall c m r n]) ∧
    ((¬ ∃ wal v, C.ethereum w.ext = some wal ∧ (authAnswer C w wal).1 = Outcome.ok v) →
      (newEvents (signMessage C) w).filter Event.isSignMessage = [] ∧
      (newEvents (transfer C token_address recipient amount decimals) w).filter
        Event.isContractCall = []) := by
  cases hw : C.ethereum w.ext with
  | none =>
    have e1 : newEvents (signMessage C) w = [] := by
      apply newEvents_eq
      rw [signMessage_run, getProvider_run_none C w hw]
      simp
    have e2 : newEvents (transfer C token_address recipient amount decimals) w = [] := by
      apply newEvents_eq
      rw [transfer_run, getProvider_run_none C w hw]
      simp
    rw [e1, e2]
    simp
  | some wal =>
    cases ha : (authAnswer C w wal).1 with
    | ok v =>
      have e1 : ∃ rest, newEvents (signMessage C) w =
          authEvent (freshProvider w wal) ::
            Event.signMessage ⟨freshProvider w wal⟩ "Hello World" :: rest ∧
          ∀ ev ∈ rest, Event.isSignMessage ev = false := by
        cases hs : (C.signMessage (authAnswer C w wal).2 ⟨freshProvider w wal⟩
            "Hello World").1 with
        | ok sig =>
          refine ⟨[Event.consoleLog ("signed: " ++ sig)], ?_, by simp [Event.isSignMessage]⟩
          apply newEvents_eq
          rw [signMessage_run, getProvider_run C w wal hw, ha]
          simp only [afterAuth, hs, List.append_assoc, List.singleton_append]
          rfl
        | throw e =>
          refine ⟨[], ?_, by simp⟩
          apply newEvents_eq
          rw [signMessage_run, getProvider_run C w wal hw, ha]
          simp only [afterAuth, hs, List.append_assoc, List.singleton_append]
        | pending =>
          refine ⟨[], ?_, by simp⟩
          apply newEvents_eq
          rw [signMessage_run, getProvider_run C w wal hw, ha]
          simp only [afterAuth, hs, List.append_assoc, List.singleton_append]
      have e2 : newEvents (transfer C token_address recipient amount decimals) w =
            [authEvent (freshProvider w wal)] ∨
          ∃ n, newEvents (transfer C token_address recipient amount decimals) w =
            [authEvent (freshProvider w wal),
              Event.contractCall ⟨token_address, abi, ⟨freshProvider w wal⟩⟩ "transfer"
                recipient n] := by
        cases hp : C.parseUnits amount decimals with
        | error e =>
          left
          apply newEvents_eq
          rw [transfer_run, getProvider_run C w wal hw, ha]
          simp only [hp, afterAuth]
        | ok n =>
          right
          refine ⟨n, ?_⟩
          apply newEvents_eq
          rw [transfer_run, getProvider_run C w wal hw, ha]
          simp only [hp, afterAuth, List.append_assoc, List.singleton_append]
      obtain ⟨rest, hrest, hno⟩ := e1
      refine ⟨?_, ?_, ?_⟩
      · intro sg msg hmem
        rw [hrest] at hmem
        simp only [authEvent, List.mem_cons, reduceCtorEq, Event.signMessage.injEq,
          false_or] at hmem
        rcases hmem with ⟨h1, h2⟩ | hmem
        · subst h1 h2
          exact ⟨wal, v, rest, rfl, ha, rfl, hrest⟩
        · have := hno _ hmem
          simp [Event.isSignMessage] at this
      · intro c m r n hmem
        rcases e2 with e2 | ⟨n2, e2⟩
        · rw [e2] at hmem
          simp [authEvent] at hmem
        · rw [e2] at hmem
          simp only [authEvent, List.mem_cons, reduceCtorEq, Event.contractCall.injEq,
            false_or, List.mem_singleton, List.not_mem_nil, or_false] at hmem
          obtain ⟨h1, h2, h3, h4⟩ := hmem
          subst h1 h2 h3 h4
          exact ⟨wal, v, rfl, ha, rfl, e2⟩
      · intro hno2
        exact absurd ⟨wal, v, rfl, ha⟩ hno2
    | throw e =>
      have e1 : newEvents (signMessage C) w = [authEvent (freshProvider w wal)] := by
        apply newEvents_eq
        rw [signMessage_run, getProvider_run C w wal hw, ha]
        rfl
      have e2 : newEvents (transfer C token_address recipient amount decimals) w
          = [authEvent (freshProvider w wal)] := by
        apply newEvents_eq
        rw [transfer_run, getProvider_run C w wal hw, ha]
        rfl
      rw [e1, e2]
      simp [authEvent, Event.isSignMessage, Event.isContractCall]
    | pending =>
      have e1 : newEvents (signMessage C) w = [authEvent (freshProvider w wal)] := by
        apply newEvents_eq
        rw [signMessage_run, getProvider_run C w wal hw, ha]
        rfl
      have e2 : newEvents (transfer C token_address recipient amount decimals) w
          = [authEvent (freshProvider w wal)] := by
        apply newEvents_eq
        rw [transfer_run, getProvider_run C w wal hw, ha]
        rfl
      rw [e1, e2]
      simp [authEvent, Event.isSignMessage, Event.isContractCall]

/-- C8: nothing is cached between calls.  After a first `getProvider()` started in `w`, let the
external state become anything (`s2`, for instance authorization revoked) and call again: the
second call builds a provider distinct from the first, issues its own `eth_requestAccounts`
request, and ends as the answer to that second request dictates, whatever the first call
returned; in particular it fails when the second request is refused although the first call
succeeded.  Each of `getSigner`, `getProviderData`, `signMessage` and `transfer` likewise opens
with its own request on its own new provider. -/
theorem getProvider_not_cached {σ : Type} (C : Collab σ) (w : World σ) (s2 : σ)
    (wal1 wal2 : WalletObj) (token_address recipient amount : String) (decimals : Nat)
    (hw1 : C.ethereum w.ext = some wal1) (hw2 : C.ethereum s2 = some wal2) :
    (freshProvider ⟨s2, (getProvider C w).2.trace, (getProvider C w).2.nextId⟩ wal2).id
      ≠ (freshProvider w wal1).id ∧
    newEvents (getProvider C) ⟨s2, (getProvider C w).2.trace, (getProvider C w).2.nextId⟩ =
      [Event.send
        (freshProvider ⟨s2, (getProvider C w).2.trace, (getProvider C w).2.nextId⟩ wal2)
        "eth_requestAccounts" []] ∧
    (getProvider C ⟨s2, (getProvider C w).2.trace, (getProvider C w).2.nextId⟩).1 =
      (match (C.send s2
          (freshProvider ⟨s2, (getProvider C w).2.trace, (getProvider C w).2.nextId⟩ wal2)
          "eth_requestAccounts" []).1 with
        | Outcome.ok _ =>
          Outcome.ok
            (freshProvider ⟨s2, (getProvider C w).2.trace, (getProvider C w).2.nextId⟩ wal2)
        | Outcome.throw e => Outcome.throw e
        | Outcome.pending => Outcome.pending) ∧
    (∀ v e, (authAnswer C w wal1).1 = Outcome.ok v →
      (C.send s2
          (freshProvider ⟨s2, (getProvider C w).2.trace, (getProvider C w).2.nextId⟩ wal2)
          "eth_requestAccounts" []).1 = Outcome.throw e →
      (getProvider C w).1 = Outcome.ok (freshProvider w wal1) ∧
      (getProvider C ⟨s2, (getProvider C w).2.trace, (getProvider C w).2.nextId⟩).1
        = Outcome.throw e) ∧
    (∃ r1 r2 r3 r4,
      newEvents (getSigner C) w
        = Event.send (freshProvider w wal1) "eth_requestAccounts" [] :: r1 ∧
      newEvents (getProviderData C) w
        = Event.send (freshProvider w wal1) "eth_requestAccounts" [] :: r2 ∧
      newEvents (signMessage C) w
        = Event.send (freshProvider w wal1) "eth_requestAccounts" [] :: r3 ∧
      newEvents (transfer C token_address recipient amount decimals) w
        = Event.send (freshProvider w wal1) "eth_requestAccounts" [] :: r4) := by
  have hn : (getProvider C w).2.nextId = w.nextId + 1 := by
    rw [getProvider_run C w wal1 hw1]
    rfl
  have hrun2 := getProvider_run C ⟨s2, (getProvider C w).2.trace, (getProvider C w).2.nextId⟩
    wal2 hw2
  refine ⟨?_, ?_, ?_, ?_, ?_⟩
  · simp only [freshProvider, hn]
    omega
  · apply newEvents_eq
    rw [hrun2]
    rfl
  · rw [hrun2]
    rfl
  · intro v e ha1 ha2
    constructor
    · rw [getProvider_run C w wal1 hw1, ha1]
    · rw [hrun2]
      simp only [authAnswer]
      rw [ha2]
  · obtain ⟨r3, h3⟩ := signMessage_events C w wal1 hw1
    obtain ⟨r4, h4⟩ := transfer_events C w wal1 token_address recipient amount decimals hw1
    exact ⟨[], [], r3, r4, getSigner_events C w wal1 hw1, getProviderData_events C w wal1 hw1,
      h3, h4⟩

/-- Witness for C8: the user approves the first authorization prompt and, the approval used
up, the second call is refused. -/
theorem getProvider_not_cached_witness :
    approving.ethereum (freshWorld 1).ext = some ⟨1⟩ ∧ approving.ethereum 0 = some ⟨1⟩ ∧
    (getProvider approving (freshWorld 1)).1 = Outcome.ok ⟨0, ⟨1⟩⟩ ∧
    (getProvider approving ⟨0, (getProvider approving (freshWorld 1)).2.trace,
      (getProvider approving (freshWorld 1)).2.nextId⟩).1 = Outcome.throw userRejected :=
  ⟨rfl, rfl,
    (getProvider_not_cached approving (freshWorld 1) 0 ⟨1⟩ ⟨1⟩ "0xTOKEN" "0xRECIPIENT" "10.5" 18
      rfl rfl).2.2.2.1 "0xabc" userRejected rfl rfl⟩

/-- C3: with the library's parser `parseUnits`, for every well-formed decimal string `amount`
(optional sign, digits, optionally a point and digits) with at most `decimals` fractional
digits, the integer that an authorized `transfer` passes to the contract's `transfer` method
is exactly the number `amount` denotes times `10^decimals`; and amount `"10.5"` with
decimals 18 is passed as `10500000000000000000`. -/
theorem transfer_scales_amount_exactly {σ : Type} (C : Collab σ) (w : World σ)
    (wal : WalletObj) (v : RpcResult) (token_address recipient : String)
    (negative : Bool) (whole frac : List (Fin 10)) (decimals : Nat)
    (hlib : C.parseUnits = parseUnits)
    (hw : C.ethereum w.ext = some wal) (ha : (authAnswer C w wal).1 = Outcome.ok v)
    (hwhole : whole ≠ []) (hfrac : frac.length ≤ decimals) :
    (∃ n : Int,
      newEvents (transfer C token_address recipient (decimalString negative whole frac)
          decimals) w =
        [Event.send (freshProvider w wal) "eth_requestAccounts" [],
          Event.contractCall ⟨token_address, abi, ⟨freshProvider w wal⟩⟩ "transfer"
            recipient n] ∧
      (n : ℚ) = decimalValue negative whole frac * 10 ^ decimals) ∧
    newEvents (transfer C token_address recipient "10.5" 18) w =
      [Event.send (freshProvider w wal) "eth_requestAccounts" [],
        Event.contractCall ⟨token_address, abi, ⟨freshProvider w wal⟩⟩ "transfer"
          recipient 10500000000000000000] := by
  have run : ∀ amount dec n, parseUnits amount dec = Except.ok n →
      newEvents (transfer C token_address recipient amount dec) w =
        [Event.send (freshProvider w wal) "eth_requestAccounts" [],
          Event.contractCall ⟨token_address, abi, ⟨freshProvider w wal⟩⟩ "transfer"
            recipient n] := by
    intro amount dec n hp
    apply newEvents_eq
    rw [transfer_run, getProvider_run C w wal hw, ha]
    simp only [hlib, hp, afterAuth, authEvent, List.append_assoc, List.singleton_append]
  refine ⟨?_, run "10.5" 18 10500000000000000000 rfl⟩
  refine ⟨_, run _ _ _ (parseUnits_decimalString negative whole frac decimals hwhole hfrac), ?_⟩
  cases negative with
  | false =>
    simp only [Bool.false_eq_true, if_false, decimalValue, one_mul]
    exact scaled_cast _ _ _ _ hfrac
  | true =>
    simp only [if_true, decimalValue, Int.cast_neg, neg_mul, one_mul]
    rw [scaled_cast _ _ _ _ hfrac]

/-- Witness for C3: the amount `"10.5"` with 18 decimals, every prompt approved. -/
theorem transfer_scales_amount_exactly_witness :
    decimalString false [1, 0] [5] = "10.5" ∧
    decimalValue false [1, 0] [5] * 10 ^ 18 = 10500000000000000000 ∧
    ∃ n : Int,
      newEvents (transfer approving "0xTOKEN" "0xRECIPIENT" (decimalString false [1, 0] [5])
          18) (freshWorld 2) =
        [Event.send (freshProvider (freshWorld 2) ⟨1⟩) "eth_requestAccounts" [],
          Event.contractCall ⟨"0xTOKEN", abi, ⟨freshProvider (freshWorld 2) ⟨1⟩⟩⟩ "transfer"
            "0xRECIPIENT" n] ∧
      (n : ℚ) = decimalValue false [1, 0] [5] * 10 ^ 18 :=
  ⟨by decide,
    by
      have h1 : digitsNumber [1, 0] = 10 := rfl
      have h2 : digitsNumber [5] = 5 := rfl
      simp only [decimalValue, h1, h2]
      norm_num,
    (transfer_scales_amount_exactly approving (freshWorld 2) ⟨1⟩ "0xabc" "0xTOKEN" "0xRECIPIENT"
      false [1, 0] [5] 18 rfl rfl rfl (by decide) (by decide)).1⟩

end Metamask
